import Mathlib

/-!
Shallow embedding of the fileverse collaboration server core:
the durable update/commit log (MongoDBStore), the three-tier session
manager (in-memory map, Redis cache, MongoDB record), the owner-DID
resolver cache, and the WebSocket command dispatcher.

The definitions mirror the most complete variant of the source: the
WebSocketManager that is wired to the session manager keyed by the
composite `documentId__sessionDid` (the variant with an in-memory
mirror and pub/sub synchronization) and the MongoDB store whose rows
carry a `sessionDid` field.
-/

namespace Collab

/-- Session lifecycle state stored in the durable session record. -/
inductive SessState where
  | active
  | inactive
  | terminated
deriving DecidableEq, Repr

/-- Connection role assigned on `/auth`. -/
inductive Role where
  | owner
  | editor
deriving DecidableEq, Repr

/-- Durable session row (MongoDB `sessions` collection). -/
structure SessionRow where
  documentId : String
  sessionDid : String
  ownerDid : String
  state : SessState
  roomInfo : Option String
deriving DecidableEq, Repr

/-- Durable update-log row (MongoDB `document_updates` collection).
The `data` payload is opaque. -/
structure UpdateRow where
  id : String
  documentId : String
  sessionDid : String
  data : String
  updateType : String
  committed : Bool
  commitCid : Option String
  createdAt : Nat
deriving DecidableEq, Repr

/-- Durable commit row (MongoDB `document_commits` collection). -/
structure CommitRow where
  id : String
  documentId : String
  sessionDid : String
  cid : String
  updates : List String
  createdAt : Nat
deriving DecidableEq, Repr

/-- Session record as cached in Redis under `collab:session:<key>`. -/
structure CachedSession where
  documentId : String
  sessionDid : String
  ownerDid : String
  clients : List String
  roomInfo : Option String
deriving DecidableEq, Repr

/-- In-memory runtime session held in the session manager's map.
The JS `Set` of client ids is modelled as a duplicate-free list that
preserves insertion order. -/
structure RuntimeSession where
  documentId : String
  sessionDid : String
  ownerDid : String
  clients : List String
  roomInfo : Option String
deriving DecidableEq, Repr

/-- Events fanned out to session clients through `broadcastToAllDynos`. -/
inductive EventMsg where
  | roomMembership (action : String) (role : Option Role) (roomId : String)
  | contentUpdate (id : String) (data : String) (createdAt : Nat) (roomId : String)
  | awarenessUpdate (data : Option String) (roomId : String)
  | sessionTerminated (roomId : String)
deriving DecidableEq, Repr

/-- One published broadcast: the session key, the event and the excluded
client (the originator). -/
structure Broadcast where
  sessionKey : String
  msg : EventMsg
  excludeClientId : Option String
deriving DecidableEq, Repr

/-- Whole observable server-side state: the node-local in-memory map,
the shared Redis cache, the durable MongoDB collections and the log of
broadcasts that reached the fan-out path. -/
structure ServerState where
  memory : List (String × RuntimeSession)
  cache : List (String × CachedSession)
  redisConnected : Bool
  sessions : List SessionRow
  updates : List UpdateRow
  commits : List CommitRow
  broadcasts : List Broadcast
deriving DecidableEq, Repr

/-- Empty state of a freshly started node with Redis connected. -/
def ServerState.empty : ServerState :=
  { memory := [], cache := [], redisConnected := true,
    sessions := [], updates := [], commits := [], broadcasts := [] }

/-! Association lists model the JS `Map` and the Redis key space:
`set` overwrites in place on an existing key and appends otherwise,
`erase` removes the key, `lookup` finds the first binding. -/

/-- Lookup the first binding of a key. -/
def alookup {β : Type} (k : String) : List (String × β) → Option β
  | [] => none
  | (k2, v) :: rest => if k2 = k then some v else alookup k rest

/-- Overwrite the binding of a key in place, appending when absent. -/
def aset {β : Type} (k : String) (v : β) : List (String × β) → List (String × β)
  | [] => [(k, v)]
  | (k2, v2) :: rest => if k2 = k then (k2, v) :: rest else (k2, v2) :: aset k v rest

/-- Remove every binding of a key. -/
def aerase {β : Type} (k : String) (l : List (String × β)) : List (String × β) :=
  l.filter (fun p => p.1 ≠ k)

theorem alookup_aset_self {β : Type} (k : String) (v : β) (l : List (String × β)) :
    alookup k (aset k v l) = some v := by
  induction l with
  | nil => simp [aset, alookup]
  | cons p rest ih =>
    by_cases h : p.1 = k
    · simp [aset, alookup, h]
    · simp [aset, alookup, h, ih]

theorem alookup_aerase_self {β : Type} (k : String) (l : List (String × β)) :
    alookup k (aerase k l) = none := by
  induction l with
  | nil => simp [aerase, alookup]
  | cons p rest ih =>
    by_cases h : p.1 = k
    · simpa [aerase, alookup, h] using ih
    · simpa [aerase, alookup, h] using ih

/-! MongoDB primitives. `findOneAndUpdate` touches only the first
matching document; with `upsert` a fresh document is inserted when no
document matches. `deleteMany` removes every match. -/

/-- Update the first row satisfying the filter. -/
def updateFirst {α : Type} (p : α → Bool) (f : α → α) : List α → List α
  | [] => []
  | r :: rs => if p r then f r :: rs else r :: updateFirst p f rs

/-- Update the first row satisfying the filter, inserting a fresh row
when none matches (Mongo `findOneAndUpdate` with `upsert: true`). -/
def upsertFirst {α : Type} (p : α → Bool) (f : α → α) (fresh : α) (l : List α) : List α :=
  if l.any p then updateFirst p f l else l ++ [fresh]

theorem updateFirst_of_not_any {α : Type} (p : α → Bool) (f : α → α) (l : List α)
    (h : l.any p = false) : updateFirst p f l = l := by
  induction l with
  | nil => rfl
  | cons r rs ih =>
    simp only [List.any_cons, Bool.or_eq_false_iff] at h
    simp [updateFirst, h.1, ih h.2]

/-! JavaScript truthiness for the optional string arguments the wire
handlers destructure: `undefined`, `null` and the empty string are
falsy. -/

/-- Truthiness of an optional string argument. -/
def truthyOpt : Option String → Bool
  | some s => s ≠ ""
  | none => false

/-! ## MongoDBStore (update/commit log)

Mirrors the store variant whose rows carry camelCase fields and a
`sessionDid` (the one the live dispatcher calls). Sorting mirrors the
Mongo query `sort({createdAt: ±1})`: the key is `createdAt` alone, and
documents with equal keys stay in their natural (insertion) order.
`skip` runs only when `options.offset` is truthy and `limit` only when
`options.limit` is truthy, exactly like the source's falsy checks. -/

/-- Descending `createdAt` comparison on update rows. -/
def updGE (a b : UpdateRow) : Prop := b.createdAt ≤ a.createdAt

/-- Ascending `createdAt` comparison on update rows. -/
def updLE (a b : UpdateRow) : Prop := a.createdAt ≤ b.createdAt

/-- Descending `createdAt` comparison on commit rows. -/
def cmtGE (a b : CommitRow) : Prop := b.createdAt ≤ a.createdAt

/-- Ascending `createdAt` comparison on commit rows. -/
def cmtLE (a b : CommitRow) : Prop := a.createdAt ≤ b.createdAt

instance : DecidableRel updGE := fun a b => inferInstanceAs (Decidable (b.createdAt ≤ a.createdAt))

instance : DecidableRel updLE := fun a b => inferInstanceAs (Decidable (a.createdAt ≤ b.createdAt))

instance : DecidableRel cmtGE := fun a b => inferInstanceAs (Decidable (b.createdAt ≤ a.createdAt))

instance : DecidableRel cmtLE := fun a b => inferInstanceAs (Decidable (a.createdAt ≤ b.createdAt))

instance : IsTotal UpdateRow updGE := ⟨fun a b => Nat.le_total b.createdAt a.createdAt⟩

instance : IsTrans UpdateRow updGE := ⟨fun _ _ _ h1 h2 => Nat.le_trans h2 h1⟩

instance : IsTotal CommitRow cmtGE := ⟨fun a b => Nat.le_total b.createdAt a.createdAt⟩

instance : IsTrans CommitRow cmtGE := ⟨fun _ _ _ h1 h2 => Nat.le_trans h2 h1⟩

/-- Sort update rows by `createdAt`, descending when `desc`, keeping
insertion order on ties. -/
def sortUpdates (desc : Bool) (l : List UpdateRow) : List UpdateRow :=
  if desc then l.insertionSort updGE else l.insertionSort updLE

/-- Sort commit rows by `createdAt`, descending when `desc`, keeping
insertion order on ties. -/
def sortCommits (desc : Bool) (l : List CommitRow) : List CommitRow :=
  if desc then l.insertionSort cmtGE else l.insertionSort cmtLE

/-- Store operation `createUpdate`: append the row as given. -/
def createUpdateStore (u : UpdateRow) (st : ServerState) : ServerState :=
  { st with updates := st.updates ++ [u] }

/-- Store operation `markUpdatesAsCommitted`: `updateMany` over the ids
in `updateIds`, setting `committed` and `commitCid` together. Ids
without a matching row match nothing and are silently skipped. -/
def markUpdatesAsCommitted (updateIds : List String) (commitId : String)
    (st : ServerState) : ServerState :=
  { st with updates := st.updates.map (fun u =>
      if updateIds.contains u.id then
        { u with committed := true, commitCid := some commitId }
      else u) }

/-- Store operation `createCommit`: persist the commit row, then mark
the referenced updates as committed with the commit's `cid`. -/
def createCommitStore (c : CommitRow) (st : ServerState) : ServerState :=
  markUpdatesAsCommitted c.updates c.cid
    { st with commits := st.commits ++ [c] }

/-- Store query `getUpdatesByDocument` with the source's option
handling: filter by document, optionally by `committed`, sort by
`createdAt` (`desc` iff the sort string equals "desc"), then skip and
limit when those options are truthy (non-zero). -/
def getUpdatesByDocument (documentId : String) (limit offset : Nat)
    (committedF : Option Bool) (sort : String) (st : ServerState) : List UpdateRow :=
  let base := st.updates.filter (fun u => u.documentId == documentId)
  let base := match committedF with
    | some c => base.filter (fun u => u.committed == c)
    | none => base
  let sorted := sortUpdates (sort == "desc") base
  let sorted := if offset ≠ 0 then sorted.drop offset else sorted
  if limit ≠ 0 then sorted.take limit else sorted

/-- Store query `getCommitsByDocument`, analogous but without the
committed filter. -/
def getCommitsByDocument (documentId : String) (limit offset : Nat)
    (sort : String) (st : ServerState) : List CommitRow :=
  let base := st.commits.filter (fun c => c.documentId == documentId)
  let sorted := sortCommits (sort == "desc") base
  let sorted := if offset ≠ 0 then sorted.drop offset else sorted
  if limit ≠ 0 then sorted.take limit else sorted

/-! ## RedisStore (shared session cache)

The production RedisStore variant keyed by the composite session key.
Every operation is a no-op returning its failure value when the client
is not connected. -/

/-- Redis `setSession`: store under the session key (24h TTL elided —
all claims concern reads within the TTL). -/
def redisSetSession (key : String) (cs : CachedSession) (st : ServerState) : ServerState :=
  if st.redisConnected then { st with cache := aset key cs st.cache } else st

/-- Redis `getSession`. -/
def redisGetSession (key : String) (st : ServerState) : Option CachedSession :=
  if st.redisConnected then alookup key st.cache else none

/-- Redis `deleteSession`. -/
def redisDeleteSession (key : String) (st : ServerState) : ServerState :=
  if st.redisConnected then { st with cache := aerase key st.cache } else st

/-- Redis `addClientToSession`: read the cached session, push the
client id when absent, write back. No cached session: report failure
without writing. -/
def redisAddClient (key : String) (clientId : String) (st : ServerState) : ServerState :=
  if st.redisConnected then
    match alookup key st.cache with
    | none => st
    | some cs =>
      if cs.clients.contains clientId then st
      else redisSetSession key { cs with clients := cs.clients ++ [clientId] } st
  else st

/-- Redis `removeClientFromSession`: filter the client id out of the
cached list; delete the key when the list empties, else write back. -/
def redisRemoveClient (key : String) (clientId : String) (st : ServerState) : ServerState :=
  if st.redisConnected then
    match alookup key st.cache with
    | none => st
    | some cs =>
      let cl := cs.clients.filter (fun c => c ≠ clientId)
      if cl.isEmpty then redisDeleteSession key st
      else redisSetSession key { cs with clients := cl } st
  else st

/-- Redis `updateRoomInfo`: read, set the field, write back. -/
def redisUpdateRoomInfo (key : String) (roomInfo : String) (st : ServerState) : ServerState :=
  if st.redisConnected then
    match alookup key st.cache with
    | none => st
    | some cs => redisSetSession key { cs with roomInfo := some roomInfo } st
  else st

/-! ## SessionManager

The variant with the per-node `inMemorySessions` map keyed by
`documentId__sessionDid`, the Redis cache and the durable MongoDB
record, as wired to the live WebSocketManager. JS object aliasing
(the runtime session returned by `getSession` is the very object held
in the map) is modelled by re-storing the updated entry under its key
after each mutation. -/

/-- Composite session key. -/
def sessionKey (documentId sessionDid : String) : String :=
  documentId ++ "__" ++ sessionDid

/-- Durable filter for a `(documentId, sessionDid)` pair. -/
def rowMatches (d s : String) (r : SessionRow) : Bool :=
  r.documentId == d && r.sessionDid == s

/-- SessionManager `createSession`: insert into the local map with an
empty client set, cache in Redis with an empty client list, and upsert
the durable record to `state: active` with the given room info. -/
def createSessionSM (d s o : String) (roomInfo : Option String)
    (st : ServerState) : ServerState :=
  let key := sessionKey d s
  let rs : RuntimeSession := ⟨d, s, o, [], roomInfo⟩
  let st := { st with memory := aset key rs st.memory }
  let st := if st.redisConnected then redisSetSession key ⟨d, s, o, [], roomInfo⟩ st else st
  let rows := upsertFirst (fun r => rowMatches d s r && r.ownerDid == o)
    (fun r => { r with state := .active, roomInfo := roomInfo })
    ⟨d, s, o, .active, roomInfo⟩ st.sessions
  { st with sessions := rows }

/-- SessionManager `getSession`: the three-tier read. Memory first;
then the Redis cache, warming the memory map on a hit; then the
durable record excluding `terminated` rows, warming both the memory
map and the cache on a hit. -/
def getSessionSM (d s : String) (st : ServerState) :
    Option RuntimeSession × ServerState :=
  let key := sessionKey d s
  match alookup key st.memory with
  | some sess => (some sess, st)
  | none =>
    match (if st.redisConnected then alookup key st.cache else none) with
    | some cs =>
      let rs : RuntimeSession := ⟨cs.documentId, cs.sessionDid, cs.ownerDid, cs.clients, cs.roomInfo⟩
      (some rs, { st with memory := aset key rs st.memory })
    | none =>
      match st.sessions.find? (fun r => rowMatches d s r && !(r.state == .terminated)) with
      | none => (none, st)
      | some row =>
        let rs : RuntimeSession := ⟨row.documentId, row.sessionDid, row.ownerDid, [], row.roomInfo⟩
        let st := { st with memory := aset key rs st.memory }
        let st := if st.redisConnected then
            redisSetSession key ⟨rs.documentId, rs.sessionDid, rs.ownerDid, [], rs.roomInfo⟩ st
          else st
        (some rs, st)

/-- SessionManager `addClientToSession`: three-tier lookup, then add
the client id to the runtime session's set (mirrored to its map entry)
and synchronize the Redis cache. Reports false when the session does
not exist. -/
def addClientToSessionSM (d s clientId : String) (st : ServerState) :
    Bool × ServerState :=
  match getSessionSM d s st with
  | (none, st) => (false, st)
  | (some sess, st) =>
    let key := sessionKey d s
    let cl := if sess.clients.contains clientId then sess.clients
      else sess.clients ++ [clientId]
    let st := { st with memory := aset key { sess with clients := cl } st.memory }
    let st := if st.redisConnected then redisAddClient key clientId st else st
    (true, st)

/-- SessionManager `deactivateSession`: drop the local map entry and
delete the Redis cache key. The durable record is not touched. -/
def deactivateSessionSM (d s : String) (st : ServerState) : ServerState :=
  let key := sessionKey d s
  let st := { st with memory := aerase key st.memory }
  if st.redisConnected then redisDeleteSession key st else st

/-- SessionManager `removeClientFromSession`: delete the client from
the local set; when the set empties, call `deactivateSession` and
return (skipping the Redis client removal); otherwise synchronize the
Redis cache. -/
def removeClientFromSessionSM (d s clientId : String) (st : ServerState) : ServerState :=
  let key := sessionKey d s
  match alookup key st.memory with
  | some sess =>
    let cl := sess.clients.filter (fun c => c ≠ clientId)
    let st := { st with memory := aset key { sess with clients := cl } st.memory }
    if cl.isEmpty then deactivateSessionSM d s st
    else if st.redisConnected then redisRemoveClient key clientId st else st
  | none =>
    if st.redisConnected then redisRemoveClient key clientId st else st

/-- SessionManager `terminateSession`: drop the local map entry, delete
the Redis cache key, set the first durable record for the pair to
`state: terminated, roomInfo: null`, and delete every update and commit
row of the pair. -/
def terminateSessionSM (d s : String) (st : ServerState) : ServerState :=
  let key := sessionKey d s
  let st := { st with memory := aerase key st.memory }
  let st := if st.redisConnected then redisDeleteSession key st else st
  { st with
    sessions := updateFirst (rowMatches d s)
      (fun r => { r with state := .terminated, roomInfo := none }) st.sessions,
    updates := st.updates.filter (fun u => !(u.documentId == d && u.sessionDid == s)),
    commits := st.commits.filter (fun c => !(c.documentId == d && c.sessionDid == s)) }

/-- SessionManager `updateRoomInfo`: write the field into the local
entry when present, the Redis cache and the durable record filtered by
`(documentId, sessionDid, ownerDid)`. -/
def updateRoomInfoSM (d s o : String) (roomInfo : String) (st : ServerState) : ServerState :=
  let key := sessionKey d s
  let st := match alookup key st.memory with
    | some sess => { st with memory := aset key { sess with roomInfo := some roomInfo } st.memory }
    | none => st
  let st := if st.redisConnected then redisUpdateRoomInfo key roomInfo st else st
  let rows := updateFirst (fun r => rowMatches d s r && r.ownerDid == o)
    (fun r => { r with roomInfo := some roomInfo }) st.sessions
  { st with sessions := rows }

/-- SessionManager `broadcastToAllDynos`: publish the message on the
bus and run the local delivery handler immediately. Both routes carry
the same single logical fan-out event, recorded once in the broadcast
log. -/
def broadcastToAllDynosSM (d s : String) (msg : EventMsg) (excl : Option String)
    (st : ServerState) : ServerState :=
  { st with broadcasts := st.broadcasts ++ [⟨sessionKey d s, msg, excl⟩] }

/-! ## Owner DID resolver (contract utils)

The TTL cache stores whatever `getCollaboratorDid` produced, null
included; the read path serves a cached value only when it is truthy,
so a stored null is never served. Claims concern calls within the TTL,
so eviction is elided. The two registry reads (legacy then v2) are
modelled by their outcomes; a failed external read yields null. -/

/-- Resolver `getCollaboratorDid`: try the legacy portal read and fall
back to the v2 read when the legacy result is falsy. -/
def getCollaboratorDid (legacy v2 : Option String) : Option String :=
  if truthyOpt legacy then legacy else v2

/-- Outcome of one `getOwnerDid` call: the returned DID (or null), the
cache afterwards, and whether the on-chain registry was consulted. -/
structure OwnerDidOutcome where
  result : Option String
  cache : List (String × Option String)
  usedRegistry : Bool
deriving DecidableEq, Repr

/-- Resolver `getOwnerDid`: serve a truthy cached value for the
`(contractAddress, collaboratorAddress)` key; otherwise perform the
registry read and store its result (null included) in the cache. -/
def getOwnerDid (contractAddress collaboratorAddress : String)
    (legacy v2 : Option String) (cache : List (String × Option String)) :
    OwnerDidOutcome :=
  let cacheKey := contractAddress ++ "-" ++ collaboratorAddress
  let read : OwnerDidOutcome :=
    let did := getCollaboratorDid legacy v2
    ⟨did, aset cacheKey did cache, true⟩
  match alookup cacheKey cache with
  | some cached => if truthyOpt cached then ⟨cached, cache, false⟩ else read
  | none => read

/-! ## Connection hub and command dispatcher

The WebSocketManager variant wired to the composite-keyed session
manager. Token verification and the uuid/clock effects are passed in
as parameters (`AuthEnv`, `newId`, `now`); everything else is the
source's control flow. `jsS` is the JS string coercion applied where a
possibly-undefined value flows into a string position. -/

/-- Coerce a possibly-undefined string the way JS interpolation does. -/
def jsS : Option String → String
  | some s => s
  | none => "undefined"

/-- JS `a || b` on two optional strings. -/
def orElseStr (a b : Option String) : Option String :=
  if truthyOpt a then a else b

/-- External verification results: `verifyOwnerToken(token, contract,
collaborator)` resolves to an owner DID or null; the collaboration
token verifies against the session DID or not. -/
structure AuthEnv where
  verifyOwner : Option String → Option String → Option String → Option String
  verifyCollab : Option String → String → Bool

/-- Node-local connection record. -/
structure Conn where
  clientId : String
  authenticated : Bool
  documentId : Option String
  sessionDid : Option String
  role : Option Role
deriving DecidableEq, Repr

/-- Fresh connection as minted by `handleConnection`. -/
def Conn.fresh (clientId : String) : Conn :=
  ⟨clientId, false, none, none, none⟩

/-- Wire arguments of the eight commands (all optional on the wire). -/
structure Args where
  documentId : Option String := none
  sessionDid : Option String := none
  collaborationToken : Option String := none
  ownerToken : Option String := none
  contractAddress : Option String := none
  ownerAddress : Option String := none
  roomInfo : Option String := none
  data : Option String := none
  updates : Option (List String) := none
  cid : Option String := none
  offset : Option Nat := none
  limit : Option Nat := none
  sort : Option String := none
  filtersCommitted : Option Bool := none
deriving DecidableEq, Repr

/-- Payload of a reply frame. -/
inductive RespData where
  | handshake (serverDid : String) (message : String)
  | auth (role : Option Role) (sessionType : String) (roomInfo : Option String)
  | updateCreated (u : UpdateRow)
  | commitCreated (c : CommitRow)
  | updateHistory (rows : List UpdateRow) (total : Nat)
  | commitHistory (rows : List CommitRow) (total : Nat)
  | peers (ids : List String)
  | msg (text : String)
deriving DecidableEq, Repr

/-- Reply frame envelope. -/
structure Response where
  status : Bool
  statusCode : Nat
  seqId : Option String
  isHandshakeResponse : Bool
  data : Option RespData
  err : Option String
deriving DecidableEq, Repr

/-- Frame built by `sendError`. -/
def errResp (seqId : Option String) (msg : String) (code : Nat) : Response :=
  { status := false, statusCode := code, seqId := seqId,
    isHandshakeResponse := false, data := none, err := some msg }

/-- Unsolicited frame sent immediately on connect. -/
def handshakeFrame (serverDid : String) : Response :=
  { status := true, statusCode := 200, seqId := none, isHandshakeResponse := true,
    data := some (.handshake serverDid "Connected to collaboration server"),
    err := none }

/-- Result of one handler run: the connection, the state, and the
frames sent to the requesting socket in order. -/
structure HOut where
  conn : Conn
  st : ServerState
  out : List Response
deriving DecidableEq, Repr

/-- Setup path of `/auth` for a previously-unknown pair: require an
owner token, verify it, mark the connection authenticated with role
owner, create the session and add the client. Returns whether the
setup verified, plus any error frames it sent itself (with a null
`seqId`, as in the source). -/
def setupSession (env : AuthEnv) (conn : Conn) (a : Args) (st : ServerState) :
    Bool × Conn × ServerState × List Response :=
  if ¬(truthyOpt a.documentId && truthyOpt a.ownerToken && truthyOpt a.sessionDid) then
    (false, conn, st, [errResp none "Document ID and token are required" 400])
  else
    match env.verifyOwner a.ownerToken a.contractAddress a.ownerAddress with
    | none => (false, conn, st, [errResp none "Authentication failed" 401])
    | some ownerDid =>
      let conn := { conn with authenticated := true, role := some .owner,
                              sessionDid := a.sessionDid }
      let st := createSessionSM (jsS a.documentId) (jsS a.sessionDid) ownerDid a.roomInfo st
      let (_, st) := addClientToSessionSM (jsS a.documentId) (jsS a.sessionDid) conn.clientId st
      (true, conn, st, [])

/-- Join path of `/auth` for an existing pair: verify the collaboration
token against the session's DID; an additionally supplied owner token
verifying to the session's owner grants role owner and may update the
room info; then add the client. -/
def handleJoinSession (env : AuthEnv) (conn : Conn) (a : Args) (st : ServerState) :
    Bool × Conn × ServerState × List Response :=
  if ¬(truthyOpt a.documentId && truthyOpt a.collaborationToken && truthyOpt a.sessionDid) then
    (false, conn, st,
      [errResp none "Document ID, collaboration token, and session DID are required" 400])
  else
    match getSessionSM (jsS a.documentId) (jsS a.sessionDid) st with
    | (none, st) => (false, conn, st, [errResp none "Session not found" 404])
    | (some session, st) =>
      if ¬ env.verifyCollab a.collaborationToken session.sessionDid then
        (false, conn, st, [errResp none "Authentication failed" 401])
      else
        let ownerDid :=
          if truthyOpt a.ownerToken && truthyOpt a.ownerAddress && truthyOpt a.contractAddress
          then env.verifyOwner a.ownerToken a.contractAddress a.ownerAddress
          else none
        let role : Role := if ownerDid == some session.ownerDid then .owner else .editor
        let conn := { conn with authenticated := true, role := some role,
                                documentId := a.documentId,
                                sessionDid := some session.sessionDid }
        let st :=
          if role == .owner && truthyOpt a.roomInfo then
            updateRoomInfoSM (jsS a.documentId) session.sessionDid session.ownerDid
              (jsS a.roomInfo) st
          else st
        let (_, st) := addClientToSessionSM (jsS a.documentId) session.sessionDid conn.clientId st
        (true, conn, st, [])

/-- Dispatcher `/auth`: validate the required arguments, take the setup
path when no session exists for the pair and the join path otherwise,
broadcast the membership change, and reply with role, session type and
the (aliased) current room info. The success reply carries
`is_handshake_response: true`. -/
def handleAuth (env : AuthEnv) (conn : Conn) (a : Args) (seqId : Option String)
    (st : ServerState) : HOut :=
  if ¬truthyOpt a.collaborationToken then
    ⟨conn, st, [errResp seqId "Username and token are required" 400]⟩
  else if ¬truthyOpt a.documentId then
    ⟨conn, st, [errResp seqId "Document ID is required" 400]⟩
  else
    let conn := { conn with documentId := a.documentId }
    if ¬truthyOpt a.sessionDid then
      ⟨conn, st, [errResp seqId "Session DID is required" 400]⟩
    else
      let documentId := jsS a.documentId
      let sessionDid := jsS a.sessionDid
      let (existingSession, st) := getSessionSM documentId sessionDid st
      let (isVerified, conn, st, subOut) :=
        match existingSession with
        | none => setupSession env conn a st
        | some _ => handleJoinSession env conn a st
      if ¬isVerified then
        ⟨conn, st, subOut ++ [errResp seqId "Authentication failed" 401]⟩
      else
        let st := broadcastToAllDynosSM documentId (jsS conn.sessionDid)
          (.roomMembership "user_joined" conn.role documentId) (some conn.clientId) st
        let replyRoom : Option String :=
          match existingSession with
          | none => none
          | some sess =>
            match alookup (sessionKey documentId sessionDid) st.memory with
            | some cur => cur.roomInfo
            | none => sess.roomInfo
        ⟨conn, st, subOut ++
          [{ status := true, statusCode := 200, seqId := seqId,
             isHandshakeResponse := true,
             data := some (.auth conn.role
               (if existingSession.isSome then "existing" else "new") replyRoom),
             err := none }]⟩

/-- Dispatcher `/documents/terminate`: load the session, verify the
owner token, require the verified DID to equal the session's owner,
broadcast `SESSION_TERMINATED` excluding the caller, terminate the
session, reply success. -/
def handleTerminate (env : AuthEnv) (conn : Conn) (a : Args) (seqId : Option String)
    (st : ServerState) : HOut :=
  if ¬truthyOpt a.sessionDid then
    ⟨conn, st, [errResp seqId "Session DID is required" 400]⟩
  else
    match getSessionSM (jsS a.documentId) (jsS a.sessionDid) st with
    | (none, st) => ⟨conn, st, [errResp seqId "Session not found" 404]⟩
    | (some session, st) =>
      let ownerDid := env.verifyOwner a.ownerToken a.contractAddress a.ownerAddress
      if ownerDid ≠ some session.ownerDid then
        ⟨conn, st, [errResp seqId "Unauthorized" 401]⟩
      else
        let st := broadcastToAllDynosSM (jsS a.documentId) session.sessionDid
          (.sessionTerminated (jsS a.documentId)) (some conn.clientId) st
        let st := terminateSessionSM (jsS a.documentId) session.sessionDid st
        ⟨conn, st, [{ status := true, statusCode := 200, seqId := seqId,
                      isHandshakeResponse := false,
                      data := some (.msg "Session terminated"), err := none }]⟩

/-- Dispatcher `/documents/update`: authenticated socket, verify the
collaboration token against the runtime session's DID, persist a fresh
uncommitted row, broadcast `CONTENT_UPDATE` excluding the sender,
reply with the created row. -/
def handleDocumentUpdate (env : AuthEnv) (conn : Conn) (a : Args) (seqId : Option String)
    (newId : String) (now : Nat) (st : ServerState) : HOut :=
  if ¬(conn.authenticated && truthyOpt conn.documentId && truthyOpt conn.sessionDid) then
    ⟨conn, st, [errResp seqId "Not authenticated or session not found" 401]⟩
  else
    let documentId := jsS (orElseStr a.documentId conn.documentId)
    if ¬truthyOpt a.data then
      ⟨conn, st, [errResp seqId "Update data is required" 400]⟩
    else
      let (sessionOpt, st) := getSessionSM documentId (jsS conn.sessionDid) st
      let sDid := sessionOpt.map (fun sess => sess.sessionDid)
      if ¬truthyOpt sDid then
        ⟨conn, st, [errResp seqId "Session not found" 404]⟩
      else
        let sessionDid := jsS sDid
        if ¬ env.verifyCollab a.collaborationToken sessionDid then
          ⟨conn, st, [errResp seqId "Authentication failed" 401]⟩
        else
          let u : UpdateRow :=
            ⟨newId, documentId, sessionDid, jsS a.data, "yjs_update", false, none, now⟩
          let st := createUpdateStore u st
          let st := broadcastToAllDynosSM documentId (jsS conn.sessionDid)
            (.contentUpdate u.id u.data u.createdAt documentId) (some conn.clientId) st
          ⟨conn, st, [{ status := true, statusCode := 200, seqId := seqId,
                        isHandshakeResponse := false,
                        data := some (.updateCreated u), err := none }]⟩

/-- Dispatcher `/documents/commit`: role owner required, verify the
owner token, persist the commit row and mark the referenced updates
committed, reply with the commit. No broadcast. -/
def handleDocumentCommit (env : AuthEnv) (conn : Conn) (a : Args) (seqId : Option String)
    (newId : String) (now : Nat) (st : ServerState) : HOut :=
  if ¬(conn.authenticated && truthyOpt conn.documentId && truthyOpt conn.sessionDid) then
    ⟨conn, st, [errResp seqId "Not authenticated or session not found" 401]⟩
  else if conn.role ≠ some .owner then
    ⟨conn, st, [errResp seqId "Only owners can create commits" 403]⟩
  else
    let documentId := jsS (orElseStr a.documentId conn.documentId)
    let (sessionOpt, st) := getSessionSM documentId (jsS conn.sessionDid) st
    let sDid := sessionOpt.map (fun sess => sess.sessionDid)
    if ¬truthyOpt sDid then
      ⟨conn, st, [errResp seqId "Session not found" 404]⟩
    else
      let sessionDid := jsS sDid
      match a.updates with
      | none => ⟨conn, st, [errResp seqId "Updates array and CID are required" 400]⟩
      | some ups =>
        if ¬truthyOpt a.cid then
          ⟨conn, st, [errResp seqId "Updates array and CID are required" 400]⟩
        else
          match env.verifyOwner a.ownerToken a.contractAddress a.ownerAddress with
          | none => ⟨conn, st, [errResp seqId "Authentication failed" 401]⟩
          | some _ =>
            let c : CommitRow := ⟨newId, documentId, sessionDid, jsS a.cid, ups, now⟩
            let st := createCommitStore c st
            ⟨conn, st, [{ status := true, statusCode := 200, seqId := seqId,
                          isHandshakeResponse := false,
                          data := some (.commitCreated c), err := none }]⟩

/-- Dispatcher `/documents/commit/history`: authenticated; defaults
offset 0, limit 10, sort "desc". -/
def handleCommitHistory (conn : Conn) (a : Args) (seqId : Option String)
    (st : ServerState) : HOut :=
  if ¬(conn.authenticated && truthyOpt conn.documentId) then
    ⟨conn, st, [errResp seqId "Not authenticated" 401]⟩
  else
    let documentId := jsS (orElseStr a.documentId conn.documentId)
    let offset := a.offset.getD 0
    let limit := a.limit.getD 10
    let sort := a.sort.getD "desc"
    let commits := getCommitsByDocument documentId limit offset sort st
    ⟨conn, st, [{ status := true, statusCode := 200, seqId := seqId,
                  isHandshakeResponse := false,
                  data := some (.commitHistory commits commits.length), err := none }]⟩

/-- Dispatcher `/documents/update/history`: authenticated; defaults
offset 0, limit 100, sort "desc", empty filters. -/
def handleUpdateHistory (conn : Conn) (a : Args) (seqId : Option String)
    (st : ServerState) : HOut :=
  if ¬(conn.authenticated && truthyOpt conn.documentId) then
    ⟨conn, st, [errResp seqId "Not authenticated" 401]⟩
  else
    let documentId := jsS (orElseStr a.documentId conn.documentId)
    let offset := a.offset.getD 0
    let limit := a.limit.getD 100
    let sort := a.sort.getD "desc"
    let rows := getUpdatesByDocument documentId limit offset a.filtersCommitted sort st
    ⟨conn, st, [{ status := true, statusCode := 200, seqId := seqId,
                  isHandshakeResponse := false,
                  data := some (.updateHistory rows rows.length), err := none }]⟩

/-- Dispatcher `/documents/peers/list`: authenticated; reply with the
client set of the session returned by the three-tier `getSession`
lookup (empty when the session is unknown everywhere). -/
def handlePeersList (conn : Conn) (a : Args) (seqId : Option String)
    (st : ServerState) : HOut :=
  if ¬(conn.authenticated && truthyOpt conn.documentId && truthyOpt conn.sessionDid) then
    ⟨conn, st, [errResp seqId "Not authenticated or session not found" 401]⟩
  else
    let documentId := jsS (orElseStr a.documentId conn.documentId)
    let (sessionOpt, st) := getSessionSM documentId (jsS conn.sessionDid) st
    let peers := (sessionOpt.map (fun sess => sess.clients)).getD []
    ⟨conn, st, [{ status := true, statusCode := 200, seqId := seqId,
                  isHandshakeResponse := false,
                  data := some (.peers peers), err := none }]⟩

/-- Dispatcher `/documents/awareness`: authenticated; broadcast the
opaque data excluding the sender; no persistence. -/
def handleAwareness (conn : Conn) (a : Args) (seqId : Option String)
    (st : ServerState) : HOut :=
  if ¬(conn.authenticated && truthyOpt conn.documentId && truthyOpt conn.sessionDid) then
    ⟨conn, st, [errResp seqId "Not authenticated or session not found" 401]⟩
  else
    let documentId := jsS (orElseStr a.documentId conn.documentId)
    let st := broadcastToAllDynosSM documentId (jsS conn.sessionDid)
      (.awarenessUpdate a.data documentId) (some conn.clientId) st
    ⟨conn, st, [{ status := true, statusCode := 200, seqId := seqId,
                  isHandshakeResponse := false,
                  data := some (.msg "Awareness update broadcasted"), err := none }]⟩

/-- Frame dispatch over the eight wire commands; unknown commands get a
sequenced 404 error. -/
def handleMessage (env : AuthEnv) (conn : Conn) (cmd : String) (a : Args)
    (seqId : Option String) (newId : String) (now : Nat) (st : ServerState) : HOut :=
  if cmd = "/auth" then handleAuth env conn a seqId st
  else if cmd = "/documents/update" then handleDocumentUpdate env conn a seqId newId now st
  else if cmd = "/documents/commit" then handleDocumentCommit env conn a seqId newId now st
  else if cmd = "/documents/commit/history" then handleCommitHistory conn a seqId st
  else if cmd = "/documents/update/history" then handleUpdateHistory conn a seqId st
  else if cmd = "/documents/peers/list" then handlePeersList conn a seqId st
  else if cmd = "/documents/awareness" then handleAwareness conn a seqId st
  else if cmd = "/documents/terminate" then handleTerminate env conn a seqId st
  else ⟨conn, st, [errResp seqId ("Unknown command: " ++ cmd) 404]⟩

/-! ## Update-log step relation

States reachable through the update log store's operations, with
`createUpdate` invoked the way its only caller builds rows (a fresh
uncommitted row with a null commit CID, part_005 lines 380–390) and
row deletion happening through session termination. -/

/-- One store operation. -/
inductive StoreStep : ServerState → ServerState → Prop where
  | createUpdate (u : UpdateRow) (st : ServerState)
      (hc : u.committed = false) (hcid : u.commitCid = none) :
      StoreStep st (createUpdateStore u st)
  | createCommit (c : CommitRow) (st : ServerState) :
      StoreStep st (createCommitStore c st)
  | markCommitted (ids : List String) (cid : String) (st : ServerState) :
      StoreStep st (markUpdatesAsCommitted ids cid st)
  | deleteBySession (d s : String) (st : ServerState) :
      StoreStep st (terminateSessionSM d s st)

/-- Invariant P1: a committed update row always carries a commit CID. -/
def CommittedInv (st : ServerState) : Prop :=
  ∀ u ∈ st.updates, u.committed = true → u.commitCid ≠ none

/-! ## Supporting lemmas -/

theorem getSessionSM_state_fields (d s : String) (st : ServerState) :
    ((getSessionSM d s st).2).sessions = st.sessions ∧
    ((getSessionSM d s st).2).updates = st.updates ∧
    ((getSessionSM d s st).2).commits = st.commits ∧
    ((getSessionSM d s st).2).broadcasts = st.broadcasts ∧
    ((getSessionSM d s st).2).redisConnected = st.redisConnected := by
  cases hm : alookup (sessionKey d s) st.memory with
  | some sess => simp [getSessionSM, hm]
  | none =>
    cases hrc : st.redisConnected with
    | true =>
      cases hc : alookup (sessionKey d s) st.cache with
      | some cs => simp [getSessionSM, hm, hrc, hc]
      | none =>
        cases hf : st.sessions.find? (fun r => rowMatches d s r && !(r.state == .terminated)) with
        | some row => simp [getSessionSM, redisSetSession, hm, hrc, hc, hf]
        | none => simp [getSessionSM, hm, hrc, hc, hf]
    | false =>
      cases hf : st.sessions.find? (fun r => rowMatches d s r && !(r.state == .terminated)) with
      | some row => simp [getSessionSM, redisSetSession, hm, hrc, hf]
      | none => simp [getSessionSM, hm, hrc, hf]

theorem redisAddClient_state_fields (k c : String) (st : ServerState) :
    (redisAddClient k c st).sessions = st.sessions ∧
    (redisAddClient k c st).updates = st.updates ∧
    (redisAddClient k c st).commits = st.commits ∧
    (redisAddClient k c st).broadcasts = st.broadcasts := by
  unfold redisAddClient redisSetSession
  repeat' split
  all_goals simp_all

theorem addClientToSessionSM_state_fields (d s c : String) (st : ServerState) :
    ((addClientToSessionSM d s c st).2).sessions = st.sessions ∧
    ((addClientToSessionSM d s c st).2).updates = st.updates ∧
    ((addClientToSessionSM d s c st).2).commits = st.commits ∧
    ((addClientToSessionSM d s c st).2).broadcasts = st.broadcasts := by
  have hg := getSessionSM_state_fields d s st
  rcases hgs : getSessionSM d s st with ⟨res, st1⟩
  rw [hgs] at hg
  cases res with
  | none => simp only [addClientToSessionSM, hgs]; exact ⟨hg.1, hg.2.1, hg.2.2.1, hg.2.2.2.1⟩
  | some sess =>
    simp only [addClientToSessionSM, hgs]
    by_cases hrc : st1.redisConnected = true
    · simp only [hrc, if_true]
      exact ⟨(redisAddClient_state_fields _ _ _).1.trans hg.1,
        (redisAddClient_state_fields _ _ _).2.1.trans hg.2.1,
        (redisAddClient_state_fields _ _ _).2.2.1.trans hg.2.2.1,
        (redisAddClient_state_fields _ _ _).2.2.2.trans hg.2.2.2.1⟩
    · simp only [hrc, if_false]
      exact ⟨hg.1, hg.2.1, hg.2.2.1, hg.2.2.2.1⟩

theorem updateFirst_all_of_unique {α : Type} (p : α → Bool) (f : α → α) (q : α → Prop)
    (l : List α) (h1 : (l.filter p).length ≤ 1) (hq : ∀ a, p a = true → q (f a)) :
    ∀ r ∈ updateFirst p f l, p r = true → q r := by
  induction l with
  | nil => intro r hr; simp [updateFirst] at hr
  | cons a l ih =>
    by_cases hpa : p a = true
    · intro r hr hpr
      simp only [updateFirst, hpa, if_true] at hr
      rcases List.mem_cons.mp hr with hfa | hmem
      · exact hfa ▸ hq a hpa
      · exfalso
        have hlen : (List.filter p l).length = 0 := by
          simp only [List.filter_cons, hpa, if_true, List.length_cons] at h1
          omega
        have hnil : List.filter p l = [] := List.eq_nil_of_length_eq_zero hlen
        exact (List.filter_eq_nil_iff.mp hnil r hmem) hpr
    · intro r hr hpr
      simp only [updateFirst, hpa, if_false] at hr
      rcases List.mem_cons.mp hr with rfl | hmem
      · exact absurd hpr hpa
      · have h2 : (l.filter p).length ≤ 1 := by
          simpa [List.filter_cons, hpa] using h1
        exact ih h2 r hmem hpr

/-! ## Claim theorems -/

/-- C2: `createCommit` persists the commit row, transitions every
existing referenced update to `committed=true` with `commitCid=c.cid`
in the same step, leaves unreferenced updates untouched, accepts the
commit even when some referenced ids are absent from the store, and
never creates rows for the absent ids. -/
theorem createCommit_marks_existing (c : CommitRow) (st : ServerState) :
    ((createCommitStore c st).commits = st.commits ++ [c]) ∧
    ((createCommitStore c st).updates.length = st.updates.length) ∧
    (∀ u ∈ st.updates, u.id ∈ c.updates →
      { u with committed := true, commitCid := some c.cid } ∈ (createCommitStore c st).updates) ∧
    (∀ u ∈ st.updates, u.id ∉ c.updates →
      u ∈ (createCommitStore c st).updates) ∧
    (∀ i ∈ c.updates, (∀ u ∈ st.updates, u.id ≠ i) →
      ∀ u ∈ (createCommitStore c st).updates, u.id ≠ i) := by
  refine ⟨rfl, by simp [createCommitStore, markUpdatesAsCommitted], ?_, ?_, ?_⟩
  · intro u hu hc
    simp only [createCommitStore, markUpdatesAsCommitted]
    exact List.mem_map.mpr ⟨u, hu, by simp [List.elem_iff, hc]⟩
  · intro u hu hc
    simp only [createCommitStore, markUpdatesAsCommitted]
    exact List.mem_map.mpr ⟨u, hu, by simp [List.elem_iff, hc]⟩
  · intro i _ habs u hu
    simp only [createCommitStore, markUpdatesAsCommitted, List.mem_map] at hu
    obtain ⟨v, hv, rfl⟩ := hu
    have hvi := habs v hv
    by_cases hvc : v.id ∈ c.updates <;> simp [List.elem_iff, hvc, hvi]

theorem terminateSessionSM_eq (d s : String) (st : ServerState) :
    terminateSessionSM d s st =
      { memory := aerase (sessionKey d s) st.memory,
        cache := if st.redisConnected then aerase (sessionKey d s) st.cache else st.cache,
        redisConnected := st.redisConnected,
        sessions := updateFirst (rowMatches d s)
          (fun r => { r with state := .terminated, roomInfo := none }) st.sessions,
        updates := st.updates.filter (fun u => !(u.documentId == d && u.sessionDid == s)),
        commits := st.commits.filter (fun c => !(c.documentId == d && c.sessionDid == s)),
        broadcasts := st.broadcasts } := by
  unfold terminateSessionSM redisDeleteSession
  by_cases h : st.redisConnected = true <;> simp [h]

theorem storeStep_preserves_committedInv (s1 s2 : ServerState)
    (hstep : StoreStep s1 s2) (ih : CommittedInv s1) : CommittedInv s2 := by
  cases hstep with
  | createUpdate u st hc hcid =>
    intro v hv hvc
    rcases List.mem_append.mp hv with h | h
    · exact ih v h hvc
    · rw [List.mem_singleton.mp h] at hvc
      rw [hc] at hvc
      exact absurd hvc (by simp)
  | createCommit c st =>
    intro v hv hvc
    simp only [createCommitStore, markUpdatesAsCommitted, List.mem_map] at hv
    obtain ⟨w, hw, rfl⟩ := hv
    by_cases hwc : c.updates.contains w.id = true
    · simp [List.elem_iff.mp hwc]
    · simp only [hwc, Bool.false_eq_true, if_false] at hvc ⊢
      exact ih w hw hvc
  | markCommitted ids cid st =>
    intro v hv hvc
    simp only [markUpdatesAsCommitted, List.mem_map] at hv
    obtain ⟨w, hw, rfl⟩ := hv
    by_cases hwc : ids.contains w.id = true
    · simp [List.elem_iff.mp hwc]
    · simp only [hwc, Bool.false_eq_true, if_false] at hvc ⊢
      exact ih w hw hvc
  | deleteBySession d s st =>
    intro v hv hvc
    rw [terminateSessionSM_eq] at hv
    simp only at hv
    exact ih v (List.mem_filter.mp hv).1 hvc

/-- C7: in every state reachable through the update log store's
operations, a committed update row always carries a non-null commit
CID: fresh rows are inserted uncommitted with a null CID, the only
transition sets `committed` and `commitCid` together, and deletion
cannot break the invariant. -/
theorem reachable_committedInv (st : ServerState)
    (h : Relation.ReflTransGen StoreStep ServerState.empty st) : CommittedInv st := by
  induction h with
  | refl => intro u hu _; simp [ServerState.empty] at hu
  | tail _ hstep ih => exact storeStep_preserves_committedInv _ _ hstep ih

/-- C7 witness: a two-step trace (one `createUpdate`, one
`createCommit` consuming it) ends in a state satisfying the
invariant. -/
theorem reachable_committedInv_witness :
    CommittedInv (createCommitStore ⟨"k1", "d1", "did:s", "bafyX", ["u1"], 9⟩
      (createUpdateStore ⟨"u1", "d1", "did:s", "x", "yjs_update", false, none, 5⟩
        ServerState.empty)) := by
  refine reachable_committedInv _ (Relation.ReflTransGen.tail
    (Relation.ReflTransGen.tail Relation.ReflTransGen.refl
      (StoreStep.createUpdate ⟨"u1", "d1", "did:s", "x", "yjs_update", false, none, 5⟩
        ServerState.empty rfl rfl))
    (StoreStep.createCommit ⟨"k1", "d1", "did:s", "bafyX", ["u1"], 9⟩ _))

/-- C3: `terminateSession` removes the session's key from the local
map and the shared cache, sets the durable record of the pair to
`state=terminated` with null room info, and leaves zero update and
commit rows for the pair. -/
theorem terminateSession_purges_pair (d s : String) (st : ServerState)
    (hconn : st.redisConnected = true)
    (hone : (st.sessions.filter (rowMatches d s)).length = 1) :
    (alookup (sessionKey d s) (terminateSessionSM d s st).memory = none) ∧
    (alookup (sessionKey d s) (terminateSessionSM d s st).cache = none) ∧
    (∀ u ∈ (terminateSessionSM d s st).updates, ¬(u.documentId = d ∧ u.sessionDid = s)) ∧
    (∀ c ∈ (terminateSessionSM d s st).commits, ¬(c.documentId = d ∧ c.sessionDid = s)) ∧
    (∀ r ∈ (terminateSessionSM d s st).sessions, rowMatches d s r = true →
      r.state = .terminated ∧ r.roomInfo = none) := by
  rw [terminateSessionSM_eq]
  simp only [hconn, if_true]
  refine ⟨alookup_aerase_self _ _, alookup_aerase_self _ _, ?_, ?_, ?_⟩
  · intro u hu hand
    have h2 := (List.mem_filter.mp hu).2
    simp [hand.1, hand.2] at h2
  · intro c hc hand
    have h2 := (List.mem_filter.mp hc).2
    simp [hand.1, hand.2] at h2
  · exact updateFirst_all_of_unique _ _ _ _ (le_of_eq hone) (fun a _ => ⟨rfl, rfl⟩)

/-- C3 witness: terminating a concrete session with one update and one
commit row. -/
theorem terminateSession_purges_pair_witness :
    (alookup (sessionKey "d1" "did:s") (terminateSessionSM "d1" "did:s"
      { memory := [(sessionKey "d1" "did:s", ⟨"d1", "did:s", "did:o", ["c1"], none⟩)],
        cache := [(sessionKey "d1" "did:s", ⟨"d1", "did:s", "did:o", ["c1"], none⟩)],
        redisConnected := true,
        sessions := [⟨"d1", "did:s", "did:o", .active, none⟩],
        updates := [⟨"u1", "d1", "did:s", "x", "yjs_update", false, none, 5⟩],
        commits := [⟨"k1", "d1", "did:s", "bafyX", ["u1"], 9⟩],
        broadcasts := [] }).memory = none) ∧
    (alookup (sessionKey "d1" "did:s") (terminateSessionSM "d1" "did:s"
      { memory := [(sessionKey "d1" "did:s", ⟨"d1", "did:s", "did:o", ["c1"], none⟩)],
        cache := [(sessionKey "d1" "did:s", ⟨"d1", "did:s", "did:o", ["c1"], none⟩)],
        redisConnected := true,
        sessions := [⟨"d1", "did:s", "did:o", .active, none⟩],
        updates := [⟨"u1", "d1", "did:s", "x", "yjs_update", false, none, 5⟩],
        commits := [⟨"k1", "d1", "did:s", "bafyX", ["u1"], 9⟩],
        broadcasts := [] }).cache = none) := by
  have h := terminateSession_purges_pair "d1" "did:s"
    { memory := [(sessionKey "d1" "did:s", ⟨"d1", "did:s", "did:o", ["c1"], none⟩)],
      cache := [(sessionKey "d1" "did:s", ⟨"d1", "did:s", "did:o", ["c1"], none⟩)],
      redisConnected := true,
      sessions := [⟨"d1", "did:s", "did:o", .active, none⟩],
      updates := [⟨"u1", "d1", "did:s", "x", "yjs_update", false, none, 5⟩],
      commits := [⟨"k1", "d1", "did:s", "bafyX", ["u1"], 9⟩],
      broadcasts := [] } rfl (by decide)
  exact ⟨h.1, h.2.1⟩

/-- C2 witness: a concrete commit referencing one existing and one
absent update id. -/
theorem createCommit_marks_existing_witness :
    ({ (⟨"u1", "d1", "did:s", "x", "yjs_update", false, none, 5⟩ : UpdateRow) with
        committed := true, commitCid := some "bafyX" } ∈
      (createCommitStore ⟨"k1", "d1", "did:s", "bafyX", ["u1", "ghost"], 9⟩
        { ServerState.empty with
            updates := [⟨"u1", "d1", "did:s", "x", "yjs_update", false, none, 5⟩] }).updates) ∧
    ((createCommitStore ⟨"k1", "d1", "did:s", "bafyX", ["u1", "ghost"], 9⟩
        { ServerState.empty with
            updates := [⟨"u1", "d1", "did:s", "x", "yjs_update", false, none, 5⟩] }).commits =
      [⟨"k1", "d1", "did:s", "bafyX", ["u1", "ghost"], 9⟩]) := by
  have h := createCommit_marks_existing
    ⟨"k1", "d1", "did:s", "bafyX", ["u1", "ghost"], 9⟩
    { ServerState.empty with
        updates := [⟨"u1", "d1", "did:s", "x", "yjs_update", false, none, 5⟩] }
  refine ⟨h.2.2.1 _ (by decide) (by decide), ?_⟩
  have h1 := h.1
  simpa using h1

end Collab

namespace Collab

/-- Concrete one-client session state used to exercise the
last-client-leaves path. -/
def stLastClient : ServerState :=
  { memory := [(sessionKey "d1" "did:s", ⟨"d1", "did:s", "did:o", ["c1"], none⟩)],
    cache := [(sessionKey "d1" "did:s", ⟨"d1", "did:s", "did:o", ["c1"], none⟩)],
    redisConnected := true,
    sessions := [⟨"d1", "did:s", "did:o", .active, none⟩],
    updates := [], commits := [], broadcasts := [] }

/-- C4 counterexample: when the last client leaves, `deactivateSession`
runs, but the durable record keeps `state=active` — it is never set to
`inactive`, contradicting the claim's durable transition. -/
theorem lastClientLeaves_keeps_active :
    ((removeClientFromSessionSM "d1" "did:s" "c1" stLastClient).sessions =
      [⟨"d1", "did:s", "did:o", .active, none⟩]) ∧
    (SessState.active ≠ SessState.inactive) ∧
    (alookup (sessionKey "d1" "did:s")
      (removeClientFromSessionSM "d1" "did:s" "c1" stLastClient).memory = none) ∧
    (alookup (sessionKey "d1" "did:s")
      (removeClientFromSessionSM "d1" "did:s" "c1" stLastClient).cache = none) := by
  decide

/-- C4 (amended): when `removeClientFromSession` empties the local
client set, `deactivateSession` is invoked: the session is dropped from
the local map and the shared cache key is deleted, while the durable
session record is left untouched (it keeps whatever state it had; no
`inactive` write occurs). -/
theorem lastClientLeaves_deactivates (d s clientId : String) (st : ServerState)
    (sess : RuntimeSession)
    (hmem : alookup (sessionKey d s) st.memory = some sess)
    (hlast : sess.clients.filter (fun c => c ≠ clientId) = [])
    (hconn : st.redisConnected = true) :
    (alookup (sessionKey d s) (removeClientFromSessionSM d s clientId st).memory = none) ∧
    (alookup (sessionKey d s) (removeClientFromSessionSM d s clientId st).cache = none) ∧
    ((removeClientFromSessionSM d s clientId st).sessions = st.sessions) ∧
    ((removeClientFromSessionSM d s clientId st).updates = st.updates) ∧
    ((removeClientFromSessionSM d s clientId st).commits = st.commits) := by
  unfold removeClientFromSessionSM deactivateSessionSM redisDeleteSession
  simp only [hmem, hlast, List.isEmpty_nil, if_true, hconn]
  simp [alookup_aerase_self]

/-- C4 witness: the amended theorem applied to the concrete one-client
session. -/
theorem lastClientLeaves_deactivates_witness :
    (alookup (sessionKey "d1" "did:s")
      (removeClientFromSessionSM "d1" "did:s" "c1" stLastClient).cache = none) ∧
    ((removeClientFromSessionSM "d1" "did:s" "c1" stLastClient).sessions =
      stLastClient.sessions) := by
  have h := lastClientLeaves_deactivates "d1" "did:s" "c1" stLastClient
    ⟨"d1", "did:s", "did:o", ["c1"], none⟩ (by decide) (by decide) rfl
  exact ⟨h.2.1, h.2.2.1⟩

end Collab

namespace Collab

/-- C5: a `/documents/terminate` request whose owner token does not
verify to the session's owner DID is answered with a single 401 error
frame, no `SESSION_TERMINATED` (or any) broadcast is emitted, and the
durable session, update and commit rows are untouched. -/
theorem unauthorizedTerminate_unchanged (env : AuthEnv) (conn : Conn) (a : Args)
    (seqId : Option String) (st : ServerState) (sess : RuntimeSession)
    (hsd : truthyOpt a.sessionDid = true)
    (hget : (getSessionSM (jsS a.documentId) (jsS a.sessionDid) st).1 = some sess)
    (hbad : env.verifyOwner a.ownerToken a.contractAddress a.ownerAddress ≠ some sess.ownerDid) :
    ((handleTerminate env conn a seqId st).out = [errResp seqId "Unauthorized" 401]) ∧
    ((handleTerminate env conn a seqId st).st.sessions = st.sessions) ∧
    ((handleTerminate env conn a seqId st).st.updates = st.updates) ∧
    ((handleTerminate env conn a seqId st).st.commits = st.commits) ∧
    ((handleTerminate env conn a seqId st).st.broadcasts = st.broadcasts) := by
  have hf := getSessionSM_state_fields (jsS a.documentId) (jsS a.sessionDid) st
  rcases hg : getSessionSM (jsS a.documentId) (jsS a.sessionDid) st with ⟨res, st1⟩
  rw [hg] at hf hget
  simp only at hget
  subst hget
  unfold handleTerminate
  simp only [hsd, not_true, Bool.not_eq_true, Bool.true_eq_false, if_false, ite_false, hg]
  rw [if_pos hbad]
  exact ⟨rfl, hf.1, hf.2.1, hf.2.2.1, hf.2.2.2.1⟩

/-- C5 witness: a non-owner terminate attempt against the concrete
one-client session. -/
theorem unauthorizedTerminate_unchanged_witness :
    ((handleTerminate ⟨fun _ _ _ => none, fun _ _ => false⟩
      ⟨"cx", true, some "d1", some "did:s", some .editor⟩
      { documentId := some "d1", sessionDid := some "did:s" }
      (some "q") stLastClient).out = [errResp (some "q") "Unauthorized" 401]) ∧
    ((handleTerminate ⟨fun _ _ _ => none, fun _ _ => false⟩
      ⟨"cx", true, some "d1", some "did:s", some .editor⟩
      { documentId := some "d1", sessionDid := some "did:s" }
      (some "q") stLastClient).st.sessions = stLastClient.sessions) := by
  have h := unauthorizedTerminate_unchanged ⟨fun _ _ _ => none, fun _ _ => false⟩
    ⟨"cx", true, some "d1", some "did:s", some .editor⟩
    { documentId := some "d1", sessionDid := some "did:s" }
    (some "q") stLastClient ⟨"d1", "did:s", "did:o", ["c1"], none⟩
    (by decide) (by decide) (by decide)
  exact ⟨h.1, h.2.1⟩

end Collab

namespace Collab

/-- Key the peers-list handler uses for its session lookup. -/
def peersKey (conn : Conn) (a : Args) : String :=
  sessionKey (jsS (orElseStr a.documentId conn.documentId)) (jsS conn.sessionDid)

/-- Concrete state where the node-local client set and the shared
cache disagree about the session's cluster-wide membership. -/
def stPeers : ServerState :=
  { memory := [(sessionKey "d1" "did:s", ⟨"d1", "did:s", "did:o", ["a"], none⟩)],
    cache := [(sessionKey "d1" "did:s", ⟨"d1", "did:s", "did:o", ["a", "b"], none⟩)],
    redisConnected := true,
    sessions := [⟨"d1", "did:s", "did:o", .active, none⟩],
    updates := [], commits := [], broadcasts := [] }

/-- C6 counterexample: with the shared cache available and holding the
cluster-wide set `["a", "b"]`, the reply still carries the node-local
set `["a"]` — the handler's lookup prefers the local map over the
cache, so the claim's cache-first reading is false. -/
theorem peersList_prefers_local :
    (stPeers.redisConnected = true) ∧
    (alookup (sessionKey "d1" "did:s") stPeers.cache =
      some ⟨"d1", "did:s", "did:o", ["a", "b"], none⟩) ∧
    ((handlePeersList ⟨"a", true, some "d1", some "did:s", some .editor⟩ {}
        (some "q") stPeers).out =
      [{ status := true, statusCode := 200, seqId := some "q", isHandshakeResponse := false,
         data := some (.peers ["a"]), err := none }]) ∧
    (["a"] ≠ (["a", "b"] : List String)) := by
  refine ⟨rfl, by decide, by decide, by decide⟩

/-- C6 (amended): the peers reply returns the client set produced by
the three-tier `getSession` lookup: the node-local set whenever the
session is in the local map, the cached set only on a local miss, and
the empty set when both miss (the durable fallback starts with no
clients). -/
theorem peersList_three_tier (conn : Conn) (a : Args) (seqId : Option String)
    (st : ServerState)
    (hauth : conn.authenticated = true) (hdoc : truthyOpt conn.documentId = true)
    (hsess : truthyOpt conn.sessionDid = true) :
    (∀ sess, alookup (peersKey conn a) st.memory = some sess →
      (handlePeersList conn a seqId st).out =
        [⟨true, 200, seqId, false, some (.peers sess.clients), none⟩]) ∧
    (alookup (peersKey conn a) st.memory = none → st.redisConnected = true →
      ∀ cs, alookup (peersKey conn a) st.cache = some cs →
      (handlePeersList conn a seqId st).out =
        [⟨true, 200, seqId, false, some (.peers cs.clients), none⟩]) ∧
    (alookup (peersKey conn a) st.memory = none →
      (st.redisConnected = false ∨ alookup (peersKey conn a) st.cache = none) →
      (handlePeersList conn a seqId st).out =
        [⟨true, 200, seqId, false, some (.peers []), none⟩]) := by
  refine ⟨?_, ?_, ?_⟩
  · intro sess hmem
    unfold handlePeersList getSessionSM
    simp only [hauth, hdoc, hsess, Bool.and_self, not_true, Bool.not_eq_true,
      Bool.true_eq_false, if_false, ite_false]
    simp [peersKey] at hmem
    simp [hmem]
  · intro hmem hconn cs hcache
    unfold handlePeersList getSessionSM
    simp only [hauth, hdoc, hsess, Bool.and_self, not_true, Bool.not_eq_true,
      Bool.true_eq_false, if_false, ite_false]
    simp [peersKey] at hmem hcache
    simp [hmem, hconn, hcache]
  · intro hmem hrest
    unfold handlePeersList getSessionSM
    simp only [hauth, hdoc, hsess, Bool.and_self, not_true, Bool.not_eq_true,
      Bool.true_eq_false, if_false, ite_false]
    simp [peersKey] at hmem
    rcases hrest with hoff | hnone
    · simp [peersKey] at hoff ⊢
      simp [hmem, hoff]
      cases hf : (st.sessions.find? fun r =>
          rowMatches (jsS (orElseStr a.documentId conn.documentId)) (jsS conn.sessionDid) r &&
            !(r.state == SessState.terminated)) with
      | none => simp [redisSetSession, hoff]
      | some row => simp [redisSetSession, hoff]
    · simp [peersKey] at hnone
      simp [hmem, hnone]
      cases hf : (st.sessions.find? fun r =>
          rowMatches (jsS (orElseStr a.documentId conn.documentId)) (jsS conn.sessionDid) r &&
            !(r.state == SessState.terminated)) with
      | none => simp
      | some row => simp [redisSetSession]

/-- C6 witness: a local miss with a cache hit returns the cached
cluster-wide set. -/
theorem peersList_three_tier_witness :
    (handlePeersList ⟨"a", true, some "d1", some "did:s", some .editor⟩ {}
        (some "q") { stPeers with memory := [] }).out =
      [⟨true, 200, some "q", false, some (.peers ["a", "b"]), none⟩] := by
  exact (peersList_three_tier ⟨"a", true, some "d1", some "did:s", some .editor⟩ {}
    (some "q") { stPeers with memory := [] } rfl (by decide) (by decide)).2.1
    (by decide) rfl ⟨"d1", "did:s", "did:o", ["a", "b"], none⟩ (by decide)

end Collab

namespace Collab

theorem rowMatches_eq {d s : String} {r : SessionRow} (h : rowMatches d s r = true) :
    r.documentId = d ∧ r.sessionDid = s := by
  simp [rowMatches] at h
  exact h

theorem updateFirst_mem_of_any {α : Type} (p : α → Bool) (f : α → α) (l : List α)
    (h : l.any p = true) : ∃ a, a ∈ l ∧ p a = true ∧ f a ∈ updateFirst p f l := by
  induction l with
  | nil => simp at h
  | cons r rs ih =>
    by_cases hr : p r = true
    · exact ⟨r, List.mem_cons_self r rs, hr, by simp [updateFirst, hr]⟩
    · simp only [List.any_cons, hr, Bool.false_or] at h
      obtain ⟨a, ha, hpa, hmemf⟩ := ih h
      refine ⟨a, List.mem_cons_of_mem r ha, hpa, ?_⟩
      simp only [updateFirst, hr, Bool.false_eq_true, if_false]
      exact List.mem_cons_of_mem r hmemf

theorem upsertFirst_active_row (d s o : String) (ri : Option String) (l : List SessionRow) :
    ∃ row ∈ upsertFirst (fun r => rowMatches d s r && r.ownerDid == o)
      (fun r => { r with state := .active, roomInfo := ri })
      ⟨d, s, o, .active, ri⟩ l,
      row.documentId = d ∧ row.sessionDid = s ∧ row.state = .active := by
  by_cases h : l.any (fun r => rowMatches d s r && r.ownerDid == o) = true
  · obtain ⟨a, ha, hpa, hmem⟩ := updateFirst_mem_of_any
      (fun r => rowMatches d s r && r.ownerDid == o)
      (fun r => { r with state := .active, roomInfo := ri }) l h
    have hm := rowMatches_eq (by
      simp only [Bool.and_eq_true] at hpa
      exact hpa.1)
    refine ⟨{ a with state := .active, roomInfo := ri }, ?_, hm.1, hm.2, rfl⟩
    simp only [upsertFirst, h, if_true]
    exact hmem
  · refine ⟨⟨d, s, o, .active, ri⟩, ?_, rfl, rfl, rfl⟩
    simp only [upsertFirst, h]
    simp

/-- Verification environment where a fixed owner token resolves to the
fixed owner DID and a fixed collaboration token verifies. -/
def envOwner : AuthEnv :=
  ⟨fun t _ _ => if t = some "otok" then some "did:o" else none,
   fun t _ => t == some "ctok"⟩

/-- The owner's setup `/auth` arguments. -/
def argsSetup : Args :=
  { documentId := some "d1", sessionDid := some "did:s",
    collaborationToken := some "ctok", ownerToken := some "otok",
    contractAddress := some "0xAA", ownerAddress := some "0xBB" }

/-- State after the owner bootstrapped the session. -/
def stActive : ServerState :=
  (handleAuth envOwner (Conn.fresh "c1") argsSetup (some "q1") ServerState.empty).st

/-- State after the owner's session was terminated. -/
def stTerminated : ServerState := terminateSessionSM "d1" "did:s" stActive

/-- C1 counterexample: after `terminateSession` retired the pair, a
later `/auth` carrying a valid owner token succeeds (it does not fail)
and flips the pair's durable record back to `state=active` — the pair
is revived, contradicting both halves of the claim. -/
theorem authRevivesTerminatedPair :
    (stTerminated.sessions = [⟨"d1", "did:s", "did:o", .terminated, none⟩]) ∧
    ((handleAuth envOwner (Conn.fresh "c2") argsSetup (some "q2") stTerminated).out =
      [⟨true, 200, some "q2", true, some (.auth (some .owner) "new" none), none⟩]) ∧
    ((handleAuth envOwner (Conn.fresh "c2") argsSetup (some "q2") stTerminated).st.sessions =
      [⟨"d1", "did:s", "did:o", .active, none⟩]) := by
  decide

/-- C1 (amended): once the pair is terminated (no local or cached
entry, every durable row for the pair terminated), a later `/auth`
whose owner token does not verify fails with only error replies and
leaves the durable sessions untouched; but a later `/auth` whose owner
token verifies succeeds and puts an `active` durable row for the pair
back — the pair is not permanently retired. -/
theorem terminatedPairRevivedOnlyByOwner (env : AuthEnv) (conn : Conn) (a : Args)
    (seqId : Option String) (st : ServerState) (d s : String)
    (hd : a.documentId = some d) (hs : a.sessionDid = some s)
    (hdne : d ≠ "") (hsne : s ≠ "")
    (hct : truthyOpt a.collaborationToken = true)
    (hmem : alookup (sessionKey d s) st.memory = none)
    (hcache : alookup (sessionKey d s) st.cache = none)
    (hdur : ∀ r ∈ st.sessions, rowMatches d s r = true → r.state = .terminated) :
    (env.verifyOwner a.ownerToken a.contractAddress a.ownerAddress = none →
      (∀ r ∈ (handleAuth env conn a seqId st).out, r.status = false) ∧
      (handleAuth env conn a seqId st).st.sessions = st.sessions) ∧
    (∀ o, env.verifyOwner a.ownerToken a.contractAddress a.ownerAddress = some o →
      truthyOpt a.ownerToken = true →
      (∃ r ∈ (handleAuth env conn a seqId st).out, r.status = true ∧ r.statusCode = 200) ∧
      (∃ row ∈ (handleAuth env conn a seqId st).st.sessions,
        row.documentId = d ∧ row.sessionDid = s ∧ row.state = .active)) := by
  have hfind : st.sessions.find?
      (fun r => rowMatches d s r && !(r.state == SessState.terminated)) = none := by
    apply List.find?_eq_none.mpr
    intro x hx
    by_cases hm : rowMatches d s x = true
    · simp [hm, hdur x hx hm]
    · simp [hm]
  have hget : getSessionSM d s st = (none, st) := by
    unfold getSessionSM
    cases hconn : st.redisConnected <;> simp [hmem, hcache, hfind, hconn]
  have hdt : truthyOpt a.documentId = true := by simp [hd, truthyOpt, hdne]
  have hst : truthyOpt a.sessionDid = true := by simp [hs, truthyOpt, hsne]
  have hjsd : jsS a.documentId = d := by simp [hd, jsS]
  have hjss : jsS a.sessionDid = s := by simp [hs, jsS]
  constructor
  · intro hvo
    unfold handleAuth setupSession
    simp only [hct, hdt, hst, hjsd, hjss, not_true, Bool.not_eq_true, Bool.true_eq_false,
      if_false, ite_false, hget, Bool.and_eq_true, Bool.and_self, hvo]
    by_cases hot : truthyOpt a.ownerToken = true
    · simp [hot, errResp]
    · simp [hot, errResp]
  · intro o hvo hot
    unfold handleAuth setupSession
    simp only [hct, hdt, hst, hjsd, hjss, not_true, Bool.not_eq_true, Bool.true_eq_false,
      if_false, ite_false, hget, Bool.and_eq_true, Bool.and_self, hvo, hot]
    constructor
    · refine ⟨_, List.mem_cons_self _ _, rfl, rfl⟩
    · have hb : ∀ st2 : ServerState,
          (broadcastToAllDynosSM d (jsS (some s)) (EventMsg.roomMembership "user_joined"
            (some Role.owner) d) (some conn.clientId) st2).sessions = st2.sessions := by
        intro st2; rfl
      have hadd := addClientToSessionSM_state_fields d s conn.clientId
        (createSessionSM d s o a.roomInfo st)
      have hcreate : (createSessionSM d s o a.roomInfo st).sessions =
          upsertFirst (fun r => rowMatches d s r && r.ownerDid == o)
            (fun r => { r with state := .active, roomInfo := a.roomInfo })
            ⟨d, s, o, .active, a.roomInfo⟩ st.sessions := by
        unfold createSessionSM redisSetSession
        cases hconn : st.redisConnected <;> simp [hconn]
      obtain ⟨row, hrowmem, hrow⟩ := upsertFirst_active_row d s o a.roomInfo st.sessions
      refine ⟨row, ?_, hrow⟩
      change row ∈ ((addClientToSessionSM d s conn.clientId
        (createSessionSM d s o a.roomInfo st)).2).sessions
      rw [hadd.1, hcreate]
      exact hrowmem

end Collab

namespace Collab

/-- C1 witness: the amended theorem applied to the concrete terminated
pair, yielding the revived active row. -/
theorem terminatedPairRevivedOnlyByOwner_witness :
    ∃ row ∈ (handleAuth envOwner (Conn.fresh "c2") argsSetup (some "q2") stTerminated).st.sessions,
      row.documentId = "d1" ∧ row.sessionDid = "did:s" ∧ row.state = .active := by
  exact ((terminatedPairRevivedOnlyByOwner envOwner (Conn.fresh "c2") argsSetup (some "q2")
    stTerminated "d1" "did:s" rfl rfl (by decide) (by decide) (by decide) (by decide)
    (by decide) (by decide)).2 "did:o" (by decide) (by decide)).2

/-- Rows carried by a one-frame update-history reply. -/
def updateHistoryRows (h : HOut) : List UpdateRow :=
  match h.out with
  | [r] =>
    match r.data with
    | some (.updateHistory rows _) => rows
    | _ => []
  | _ => []

/-- Rows carried by a one-frame commit-history reply. -/
def commitHistoryRows (h : HOut) : List CommitRow :=
  match h.out with
  | [r] =>
    match r.data with
    | some (.commitHistory rows _) => rows
    | _ => []
  | _ => []

/-- Update row with the tie-breaking id out of insertion order. -/
def uTieB : UpdateRow := ⟨"b", "d1", "did:s", "x", "yjs_update", false, none, 5⟩

/-- Second update row with the same `createdAt` but smaller id. -/
def uTieA : UpdateRow := ⟨"a", "d1", "did:s", "y", "yjs_update", false, none, 5⟩

/-- State holding two updates with equal `createdAt`. -/
def stTies : ServerState := { ServerState.empty with updates := [uTieB, uTieA] }

/-- C8 counterexample: with two rows of equal `createdAt`, the default
history reply keeps insertion order `["b", "a"]` — adjacent tied rows
are not ordered by id, so ties are not broken by `id`. -/
theorem updateHistory_ties_not_by_id :
    ((handleUpdateHistory ⟨"a", true, some "d1", some "did:s", some .editor⟩ {}
        (some "q") stTies).out =
      [⟨true, 200, some "q", false, some (.updateHistory [uTieB, uTieA] 2), none⟩]) ∧
    (uTieB.createdAt = uTieA.createdAt) ∧ ¬(uTieB.id ≤ uTieA.id) := by
  refine ⟨by decide, by decide, ?_⟩
  show ¬(("b" : String) ≤ "a")
  simp
  decide

/-- C8 (amended): with the arguments omitted, both history endpoints
default to sort descending by `createdAt` (ties keep insertion order;
no id tie-break), offset 0 and limits 100/10: the reply rows are
`createdAt`-descending, at most 100/10 long, drawn from the store's
rows of the document, and complete whenever the document has at most
100/10 rows. -/
theorem history_defaults (conn : Conn) (a : Args) (seqId : Option String) (st : ServerState)
    (hauth : conn.authenticated = true) (hdoc : truthyOpt conn.documentId = true)
    (hoff : a.offset = none) (hlim : a.limit = none) (hsort : a.sort = none)
    (hfil : a.filtersCommitted = none) :
    ((updateHistoryRows (handleUpdateHistory conn a seqId st)).length ≤ 100) ∧
    (List.Pairwise updGE (updateHistoryRows (handleUpdateHistory conn a seqId st))) ∧
    (∀ u ∈ updateHistoryRows (handleUpdateHistory conn a seqId st),
      u ∈ st.updates ∧ u.documentId = jsS (orElseStr a.documentId conn.documentId)) ∧
    ((st.updates.filter
        (fun u => u.documentId == jsS (orElseStr a.documentId conn.documentId))).length ≤ 100 →
      ∀ u ∈ st.updates, u.documentId = jsS (orElseStr a.documentId conn.documentId) →
        u ∈ updateHistoryRows (handleUpdateHistory conn a seqId st)) ∧
    ((commitHistoryRows (handleCommitHistory conn a seqId st)).length ≤ 10) ∧
    (List.Pairwise cmtGE (commitHistoryRows (handleCommitHistory conn a seqId st))) ∧
    (∀ c ∈ commitHistoryRows (handleCommitHistory conn a seqId st),
      c ∈ st.commits ∧ c.documentId = jsS (orElseStr a.documentId conn.documentId)) ∧
    ((st.commits.filter
        (fun c => c.documentId == jsS (orElseStr a.documentId conn.documentId))).length ≤ 10 →
      ∀ c ∈ st.commits, c.documentId = jsS (orElseStr a.documentId conn.documentId) →
        c ∈ commitHistoryRows (handleCommitHistory conn a seqId st)) := by
  have hU : updateHistoryRows (handleUpdateHistory conn a seqId st) =
      (sortUpdates true (st.updates.filter
        (fun u => u.documentId == jsS (orElseStr a.documentId conn.documentId)))).take 100 := by
    unfold handleUpdateHistory updateHistoryRows getUpdatesByDocument
    simp [hauth, hdoc, hoff, hlim, hsort, hfil]
  have hC : commitHistoryRows (handleCommitHistory conn a seqId st) =
      (sortCommits true (st.commits.filter
        (fun c => c.documentId == jsS (orElseStr a.documentId conn.documentId)))).take 10 := by
    unfold handleCommitHistory commitHistoryRows getCommitsByDocument
    simp [hauth, hdoc, hoff, hlim, hsort]
  rw [hU, hC]
  unfold sortUpdates sortCommits
  simp only [if_true, ite_true]
  have hpermU := List.perm_insertionSort updGE (st.updates.filter
    (fun u => u.documentId == jsS (orElseStr a.documentId conn.documentId)))
  have hpermC := List.perm_insertionSort cmtGE (st.commits.filter
    (fun c => c.documentId == jsS (orElseStr a.documentId conn.documentId)))
  refine ⟨?_, ?_, ?_, ?_, ?_, ?_, ?_, ?_⟩
  · exact (List.length_take _ _).le.trans (Nat.min_le_left _ _)
  · exact (List.sorted_insertionSort updGE _).sublist (List.take_sublist _ _)
  · intro u hu
    have hmem := hpermU.mem_iff.mp (List.take_subset _ _ hu)
    have := List.mem_filter.mp hmem
    exact ⟨this.1, by simpa using this.2⟩
  · intro hlen u hu hdocu
    have hmemf : u ∈ st.updates.filter
        (fun v => v.documentId == jsS (orElseStr a.documentId conn.documentId)) :=
      List.mem_filter.mpr ⟨hu, by simp [hdocu]⟩
    have hlen2 : (List.insertionSort updGE (st.updates.filter
        (fun v => v.documentId == jsS (orElseStr a.documentId conn.documentId)))).length ≤ 100 := by
      rw [hpermU.length_eq]; exact hlen
    rw [List.take_of_length_le hlen2]
    exact hpermU.mem_iff.mpr hmemf
  · exact (List.length_take _ _).le.trans (Nat.min_le_left _ _)
  · exact (List.sorted_insertionSort cmtGE _).sublist (List.take_sublist _ _)
  · intro c hc
    have hmem := hpermC.mem_iff.mp (List.take_subset _ _ hc)
    have := List.mem_filter.mp hmem
    exact ⟨this.1, by simpa using this.2⟩
  · intro hlen c hc hdocc
    have hmemf : c ∈ st.commits.filter
        (fun v => v.documentId == jsS (orElseStr a.documentId conn.documentId)) :=
      List.mem_filter.mpr ⟨hc, by simp [hdocc]⟩
    have hlen2 : (List.insertionSort cmtGE (st.commits.filter
        (fun v => v.documentId == jsS (orElseStr a.documentId conn.documentId)))).length ≤ 10 := by
      rw [hpermC.length_eq]; exact hlen
    rw [List.take_of_length_le hlen2]
    exact hpermC.mem_iff.mpr hmemf

/-- C8 witness: the amended theorem applied to the concrete tied
store. -/
theorem history_defaults_witness :
    (List.Pairwise updGE (updateHistoryRows (handleUpdateHistory
      ⟨"a", true, some "d1", some "did:s", some .editor⟩ {} (some "q") stTies))) ∧
    ((updateHistoryRows (handleUpdateHistory
      ⟨"a", true, some "d1", some "did:s", some .editor⟩ {} (some "q") stTies)).length ≤ 100) := by
  have h := history_defaults ⟨"a", true, some "d1", some "did:s", some .editor⟩ {}
    (some "q") stTies rfl (by decide) rfl rfl rfl rfl
  exact ⟨h.2.1, h.1⟩

end Collab

namespace Collab

/-- C9: a failed registry read makes `getOwnerDid` return null, and the
failure is never served from the cache — the next call for the pair
consults the registry again — while a successful non-empty resolution
is cached and then served without touching the registry. -/
theorem ownerDid_failure_reread (contract collab : String)
    (legacy v2 legacy2 v22 : Option String) (cache : List (String × Option String))
    (hmiss : ∀ v, alookup (contract ++ "-" ++ collab) cache = some v → truthyOpt v = false) :
    (getCollaboratorDid legacy v2 = none →
      (getOwnerDid contract collab legacy v2 cache).result = none ∧
      (getOwnerDid contract collab legacy v2 cache).usedRegistry = true ∧
      (getOwnerDid contract collab legacy2 v22
        (getOwnerDid contract collab legacy v2 cache).cache).usedRegistry = true) ∧
    (∀ sVal, getCollaboratorDid legacy v2 = some sVal → sVal ≠ "" →
      (getOwnerDid contract collab legacy v2 cache).result = some sVal ∧
      (getOwnerDid contract collab legacy2 v22
        (getOwnerDid contract collab legacy v2 cache).cache).result = some sVal ∧
      (getOwnerDid contract collab legacy2 v22
        (getOwnerDid contract collab legacy v2 cache).cache).usedRegistry = false) := by
  have hfst : getOwnerDid contract collab legacy v2 cache =
      ⟨getCollaboratorDid legacy v2,
        aset (contract ++ "-" ++ collab) (getCollaboratorDid legacy v2) cache, true⟩ := by
    unfold getOwnerDid
    cases hl : alookup (contract ++ "-" ++ collab) cache with
    | none => simp [hl]
    | some v => simp [hl, hmiss v hl]
  constructor
  · intro hfail
    rw [hfst]
    refine ⟨by simp [hfail], rfl, ?_⟩
    unfold getOwnerDid
    simp only [hfail, alookup_aset_self]
    simp [truthyOpt]
  · intro sVal hsucc hne
    rw [hfst]
    refine ⟨by simp [hsucc], ?_, ?_⟩ <;>
    · unfold getOwnerDid
      simp only [hsucc, alookup_aset_self]
      simp [truthyOpt, hne]

/-- C9 witness: failure on an empty cache, then success. -/
theorem ownerDid_failure_reread_witness :
    ((getOwnerDid "0xAA" "0xBB" none none []).result = none ∧
      (getOwnerDid "0xAA" "0xBB" none none []).usedRegistry = true ∧
      (getOwnerDid "0xAA" "0xBB" (some "did:o") none
        (getOwnerDid "0xAA" "0xBB" none none []).cache).usedRegistry = true) ∧
    ((getOwnerDid "0xAA" "0xBB" (some "did:o") none []).result = some "did:o" ∧
      (getOwnerDid "0xAA" "0xBB" none none
        (getOwnerDid "0xAA" "0xBB" (some "did:o") none []).cache).result = some "did:o") := by
  have h1 := ownerDid_failure_reread "0xAA" "0xBB" none none (some "did:o") none []
    (fun v hv => by simp [alookup] at hv)
  have h2 := ownerDid_failure_reread "0xAA" "0xBB" (some "did:o") none none none []
    (fun v hv => by simp [alookup] at hv)
  have h2s := h2.2 "did:o" (by decide) (by decide)
  exact ⟨h1.1 (by decide), h2s.1, h2s.2.1⟩

end Collab

namespace Collab

theorem handleTerminate_flags (env : AuthEnv) (conn : Conn) (a : Args)
    (seqId : Option String) (st : ServerState) :
    ∀ r ∈ (handleTerminate env conn a seqId st).out, r.isHandshakeResponse = false := by
  unfold handleTerminate
  dsimp only
  repeat' split
  all_goals intro r hr
  all_goals rcases List.mem_singleton.mp hr with rfl
  all_goals rfl

theorem handleDocumentUpdate_flags (env : AuthEnv) (conn : Conn) (a : Args)
    (seqId : Option String) (newId : String) (now : Nat) (st : ServerState) :
    ∀ r ∈ (handleDocumentUpdate env conn a seqId newId now st).out,
      r.isHandshakeResponse = false := by
  unfold handleDocumentUpdate
  dsimp only
  repeat' split
  all_goals intro r hr
  all_goals rcases List.mem_singleton.mp hr with rfl
  all_goals rfl

theorem handleDocumentCommit_flags (env : AuthEnv) (conn : Conn) (a : Args)
    (seqId : Option String) (newId : String) (now : Nat) (st : ServerState) :
    ∀ r ∈ (handleDocumentCommit env conn a seqId newId now st).out,
      r.isHandshakeResponse = false := by
  unfold handleDocumentCommit
  dsimp only
  repeat' split
  all_goals intro r hr
  all_goals rcases List.mem_singleton.mp hr with rfl
  all_goals rfl

theorem handleCommitHistory_flags (conn : Conn) (a : Args) (seqId : Option String)
    (st : ServerState) :
    ∀ r ∈ (handleCommitHistory conn a seqId st).out, r.isHandshakeResponse = false := by
  unfold handleCommitHistory
  dsimp only
  repeat' split
  all_goals intro r hr
  all_goals rcases List.mem_singleton.mp hr with rfl
  all_goals rfl

theorem handleUpdateHistory_flags (conn : Conn) (a : Args) (seqId : Option String)
    (st : ServerState) :
    ∀ r ∈ (handleUpdateHistory conn a seqId st).out, r.isHandshakeResponse = false := by
  unfold handleUpdateHistory
  dsimp only
  repeat' split
  all_goals intro r hr
  all_goals rcases List.mem_singleton.mp hr with rfl
  all_goals rfl

theorem handlePeersList_flags (conn : Conn) (a : Args) (seqId : Option String)
    (st : ServerState) :
    ∀ r ∈ (handlePeersList conn a seqId st).out, r.isHandshakeResponse = false := by
  unfold handlePeersList
  dsimp only
  repeat' split
  all_goals intro r hr
  all_goals rcases List.mem_singleton.mp hr with rfl
  all_goals rfl

theorem handleAwareness_flags (conn : Conn) (a : Args) (seqId : Option String)
    (st : ServerState) :
    ∀ r ∈ (handleAwareness conn a seqId st).out, r.isHandshakeResponse = false := by
  unfold handleAwareness
  dsimp only
  repeat' split
  all_goals intro r hr
  all_goals rcases List.mem_singleton.mp hr with rfl
  all_goals rfl

theorem setupSession_flags (env : AuthEnv) (conn : Conn) (a : Args) (st : ServerState) :
    ∀ r ∈ (setupSession env conn a st).2.2.2,
      r.status = false ∧ r.isHandshakeResponse = false := by
  unfold setupSession
  dsimp only
  repeat' split
  all_goals intro r hr
  all_goals first
    | exact absurd hr (List.not_mem_nil r)
    | (rcases List.mem_singleton.mp hr with rfl; exact ⟨rfl, rfl⟩)

theorem handleJoinSession_flags (env : AuthEnv) (conn : Conn) (a : Args) (st : ServerState) :
    ∀ r ∈ (handleJoinSession env conn a st).2.2.2,
      r.status = false ∧ r.isHandshakeResponse = false := by
  unfold handleJoinSession
  dsimp only
  repeat' split
  all_goals intro r hr
  all_goals first
    | exact absurd hr (List.not_mem_nil r)
    | (rcases List.mem_singleton.mp hr with rfl; exact ⟨rfl, rfl⟩)

theorem handleAuth_flags (env : AuthEnv) (conn : Conn) (a : Args) (seqId : Option String)
    (st : ServerState) :
    ∀ r ∈ (handleAuth env conn a seqId st).out, r.isHandshakeResponse = r.status := by
  have hsetup := setupSession_flags env
  have hjoin := handleJoinSession_flags env
  unfold handleAuth
  dsimp only
  repeat' split
  all_goals intro r hr
  all_goals first
    | (rcases List.mem_singleton.mp hr with rfl; rfl)
    | skip
  all_goals rcases List.mem_append.mp hr with hsub | hfin
  all_goals first
    | (rcases List.mem_singleton.mp hfin with rfl; rfl)
    | skip
  all_goals simp_all
  all_goals
    first
    | (have hx := hsetup _ _ _ r hsub; simp [hx.1, hx.2])
    | (have hx := hjoin _ _ _ r hsub; simp [hx.1, hx.2])

end Collab

namespace Collab

/-- C10: across the whole dispatcher, a reply frame carries
`is_handshake_response = true` exactly when it is the successful
`/auth` reply (for `/auth` the flag equals the status bit; for every
other command and for error frames it is false); besides `/auth`
replies, only the unsolicited connect frame is a handshake response. -/
theorem handshakeFlag_only_auth (env : AuthEnv) (conn : Conn) (cmd : String) (a : Args)
    (seqId : Option String) (newId : String) (now : Nat) (st : ServerState)
    (serverDid : String) :
    (∀ r ∈ (handleMessage env conn cmd a seqId newId now st).out,
      r.isHandshakeResponse = (decide (cmd = "/auth") && r.status)) ∧
    ((handshakeFrame serverDid).isHandshakeResponse = true ∧
      (handshakeFrame serverDid).seqId = none ∧
      (handshakeFrame serverDid).status = true) := by
  refine ⟨?_, rfl, rfl, rfl⟩
  intro r hr
  unfold handleMessage at hr
  by_cases h1 : cmd = "/auth"
  · simp only [h1, if_true] at hr
    have := handleAuth_flags env conn a seqId st r hr
    simp [h1, this]
  · simp only [h1, if_false] at hr
    simp only [decide_eq_true_eq, h1, decide_False, Bool.false_and]
    by_cases h2 : cmd = "/documents/update"
    · simp only [h2, if_true] at hr
      exact handleDocumentUpdate_flags env conn a seqId newId now st r hr
    · simp only [h2, if_false] at hr
      by_cases h3 : cmd = "/documents/commit"
      · simp only [h3, if_true] at hr
        exact handleDocumentCommit_flags env conn a seqId newId now st r hr
      · simp only [h3, if_false] at hr
        by_cases h4 : cmd = "/documents/commit/history"
        · simp only [h4, if_true] at hr
          exact handleCommitHistory_flags conn a seqId st r hr
        · simp only [h4, if_false] at hr
          by_cases h5 : cmd = "/documents/update/history"
          · simp only [h5, if_true] at hr
            exact handleUpdateHistory_flags conn a seqId st r hr
          · simp only [h5, if_false] at hr
            by_cases h6 : cmd = "/documents/peers/list"
            · simp only [h6, if_true] at hr
              exact handlePeersList_flags conn a seqId st r hr
            · simp only [h6, if_false] at hr
              by_cases h7 : cmd = "/documents/awareness"
              · simp only [h7, if_true] at hr
                exact handleAwareness_flags conn a seqId st r hr
              · simp only [h7, if_false] at hr
                by_cases h8 : cmd = "/documents/terminate"
                · simp only [h8, if_true] at hr
                  exact handleTerminate_flags env conn a seqId st r hr
                · simp only [h8, if_false] at hr
                  rcases List.mem_singleton.mp hr with rfl
                  rfl

/-- C10 witness: the successful `/auth` reply of the concrete setup
trace has the flag set (and equal to its status), via the dispatch
theorem. -/
theorem handshakeFlag_only_auth_witness :
    (⟨true, 200, some "q1", true, some (.auth (some .owner) "new" none), none⟩ :
        Response).isHandshakeResponse =
      (decide (("/auth" : String) = "/auth") &&
        (⟨true, 200, some "q1", true, some (.auth (some .owner) "new" none), none⟩ :
          Response).status) := by
  exact (handshakeFlag_only_auth envOwner (Conn.fresh "c1") "/auth" argsSetup (some "q1")
    "u" 0 ServerState.empty "sd").1 _ (by decide)

end Collab
